import Mathlib

/-!
# Verification of the audio playback resource manager

Shallow embedding of `src/xiangqi/audio/audio_manager.py` (class
`AudioManager`) and proofs of the specified properties of its channel
allocation, rate limiting, concurrency limiting, volume handling and
bookkeeping.

Modelling conventions:
* Python `float` time stamps, delays and volumes are modelled as `ℚ`.
* Python dictionaries (`self.sounds`, `self.sound_configs`,
  `self.last_play_time`, `self.play_count`) are modelled as association
  lists with insertion-order preserving update (`dinsert`) and first-match
  lookup (`dlookup`), matching `dict` key-unique assignment semantics.
* A `pygame.mixer.Sound` object is represented by the one piece of its
  state the manager reads or writes: the volume stored by `set_volume`.
* The mixer is external: the number of mixer channels and the per-channel
  busy flag (`pygame.mixer.Channel(i).get_busy()`) are inputs to each
  operation, as is the wall clock `time.time()`.
* `audio_config.py` is not part of the given sources; its constants and
  tables are a parameter structure `AudioConfigData` (see its docstring).
-/

namespace XiangqiAudio

/-- Association-list lookup with `dict` semantics: the value stored at the
key, `none` when absent. -/
def dlookup {α : Type} (l : List (String × α)) (k : String) : Option α :=
  match l with
  | [] => none
  | (k1, v) :: t => if k1 = k then some v else dlookup t k

/-- Association-list update with `dict` assignment semantics: replace the
value in place when the key is present, append otherwise. -/
def dinsert {α : Type} (l : List (String × α)) (k : String) (v : α) :
    List (String × α) :=
  match l with
  | [] => [(k, v)]
  | (k1, v1) :: t => if k1 = k then (k, v) :: t else (k1, v1) :: dinsert t k v

/-- `@dataclass SoundInstance` of `audio_manager.py`: one in-flight playback
record (sound name, `time.time()` start stamp, mixer channel id). -/
structure SoundInstance where
  sound_name : String
  start_time : ℚ
  channel_id : ℕ
deriving DecidableEq

/-- One per-sound configuration dictionary. The Python code reads the keys
with `config.get(key, default)`, so every field is optional; `{}` (all
`none`) models the empty dictionary default of
`self.sound_configs.get(sound_name, {})`. -/
structure SoundConfig where
  volume : Option ℚ := none
  category : Option String := none
  max_instances : Option ℕ := none
  min_delay : Option ℚ := none
deriving DecidableEq

/-- Modelled from the spec: `audio_config.py` (class `AudioConfig`) is
imported by `audio_manager.py` but is not among the repository files given.
Per the spec it provides "a static table mapping asset name → {category,
base volume, max instances, min delay}", a "name→file-path resolution
convention", and process-wide defaults for max instances and min delay.
File existence (`os.path.exists`) and decode success
(`pygame.mixer.Sound(path)` not raising) are oracles of the environment. -/
structure AudioConfigData where
  MAX_SOUND_INSTANCES : ℕ
  MIN_PLAY_DELAY : ℚ
  SOUND_MAPPINGS : List (String × SoundConfig)
  get_sfx_path : String → String
  path_exists : String → Bool
  decode_ok : String → Bool

/-- The mutable state of `AudioManager` (`_init_audio_system`): loaded
sounds (name → stored `Sound.set_volume` value), per-sound config dicts,
active playback instances, last play times, play counts, and the two
volume multipliers. -/
structure AudioManagerState where
  sounds : List (String × ℚ)
  sound_configs : List (String × SoundConfig)
  playing_instances : List SoundInstance
  last_play_time : List (String × ℚ)
  play_count : List (String × ℕ)
  master_volume : ℚ
  sfx_volume : ℚ
deriving DecidableEq

/-- The configuration `load_sound` stores for a sound: the
`AudioConfig.SOUND_MAPPINGS` entry when there is one, otherwise the default
dictionary built in `load_sound` (volume 1.0, the given category or
`SoundCategory.OTHER`, process-wide max instances and min delay). -/
def configFor (env : AudioConfigData) (sound_name : String)
    (category : Option String) : SoundConfig :=
  match dlookup env.SOUND_MAPPINGS sound_name with
  | some c => c
  | none =>
    { volume := some 1
      category := some (category.getD "other")
      max_instances := some env.MAX_SOUND_INSTANCES
      min_delay := some env.MIN_PLAY_DELAY }

/-- `AudioManager.load_sound`: returns `True` at once when the sound is
already loaded; otherwise resolves the path, checks existence, decodes,
stores the sound with volume `config volume × master × sfx`, stores the
config, and resets the play count to 0. Failures leave the state as it
was. -/
def load_sound (env : AudioConfigData) (s : AudioManagerState)
    (sound_name : String) (file_path : Option String)
    (category : Option String) : Bool × AudioManagerState :=
  if (dlookup s.sounds sound_name).isSome then (true, s)
  else
    let path := file_path.getD (env.get_sfx_path sound_name)
    if !env.path_exists path then (false, s)
    else if !env.decode_ok path then (false, s)
    else
      let config := configFor env sound_name category
      let volume := config.volume.getD 1
      (true,
        { s with
          sounds := dinsert s.sounds sound_name
            (volume * s.master_volume * s.sfx_volume)
          sound_configs := dinsert s.sound_configs sound_name config
          play_count := dinsert s.play_count sound_name 0 })

/-- The outcome of one `AudioManager.play` call. The Python method returns
a bare `bool`; the constructors tag its distinct `return False` sites with
the spec's error taxonomy (`NotLoaded`, `RateLimited`,
`ConcurrencyLimited`, `NoChannelAvailable`). -/
inductive PlayResult where
  | success
  | notLoaded
  | rateLimited
  | concurrencyLimited
  | noChannelAvailable
deriving DecidableEq

/-- `AudioManager._can_play_sound`, with the two `return False` sites
tagged: first the minimum-replay-delay check (only when the sound has a
recorded last play time), then the per-sound max-instances check. -/
inductive PlayCheck where
  | ok
  | rateLimited
  | concurrencyLimited
deriving DecidableEq

def can_play_sound (env : AudioConfigData) (current_time : ℚ)
    (s : AudioManagerState) (sound_name : String) (config : SoundConfig) :
    PlayCheck :=
  let rate_hit : Bool :=
    match dlookup s.last_play_time sound_name with
    | some last =>
      decide (current_time - last < config.min_delay.getD env.MIN_PLAY_DELAY)
    | none => false
  if rate_hit then .rateLimited
  else
    let max_instances := config.max_instances.getD env.MAX_SOUND_INSTANCES
    let current_instances :=
      s.playing_instances.countP (fun i => i.sound_name == sound_name)
    if max_instances ≤ current_instances then .concurrencyLimited
    else .ok

/-- The `min(self.playing_instances, key=lambda x: x.start_time)` of
`_find_available_channel`: Python's `min` keeps the first element whose key
is minimal, i.e. replaces the running minimum only on strict decrease. -/
def oldest_of (x : SoundInstance) (xs : List SoundInstance) : SoundInstance :=
  xs.foldl (fun acc y => if y.start_time < acc.start_time then y else acc) x

/-- `AudioManager._find_available_channel`: scan channels `0 ..
num_channels - 1` for the first non-busy one; when none is free and there
are active instances, stop the oldest instance's channel, drop every
instance recorded on that channel, and reuse it; otherwise `None`. Returns
the acquired channel id together with the instance list after any
eviction. -/
def find_available_channel (busy : ℕ → Bool) (num_channels : ℕ)
    (instances : List SoundInstance) : Option (ℕ × List SoundInstance) :=
  match (List.range num_channels).find? (fun i => !busy i) with
  | some i => some (i, instances)
  | none =>
    match instances with
    | [] => none
    | x :: xs =>
      let oldest := oldest_of x xs
      some (oldest.channel_id,
        (x :: xs).filter (fun i => i.channel_id ≠ oldest.channel_id))

/-- The on-demand load of `AudioManager.play`: when the sound is missing
from `self.sounds`, try `load_sound(sound_name)` (no explicit path or
category). -/
def loadStep (env : AudioConfigData) (s : AudioManagerState)
    (sound_name : String) : Bool × AudioManagerState :=
  if (dlookup s.sounds sound_name).isSome then (true, s)
  else load_sound env s sound_name none none

/-- `AudioManager.play`: on-demand load, `_can_play_sound` checks, final
volume computation and `sound.set_volume`, channel acquisition, then the
bookkeeping update (append the new instance, stamp `last_play_time`, bump
`play_count`). As in the source, the sound's stored volume is written
before the channel lookup, so it changes even on the no-channel failure. -/
def play (env : AudioConfigData) (busy : ℕ → Bool) (num_channels : ℕ)
    (current_time : ℚ) (s : AudioManagerState) (sound_name : String)
    (volume : ℚ) : PlayResult × AudioManagerState :=
  match loadStep env s sound_name with
  | (false, s1) => (.notLoaded, s1)
  | (true, s1) =>
    let config := (dlookup s1.sound_configs sound_name).getD {}
    match can_play_sound env current_time s1 sound_name config with
    | .rateLimited => (.rateLimited, s1)
    | .concurrencyLimited => (.concurrencyLimited, s1)
    | .ok =>
      let base_volume := config.volume.getD 1
      let final_volume :=
        max 0 (min 1 (base_volume * volume * s1.master_volume * s1.sfx_volume))
      let s2 := { s1 with sounds := dinsert s1.sounds sound_name final_volume }
      match find_available_channel busy num_channels s2.playing_instances with
      | none => (.noChannelAvailable, s2)
      | some (ch, insts) =>
        (.success,
          { s2 with
            playing_instances :=
              insts ++ [⟨sound_name, current_time, ch⟩]
            last_play_time := dinsert s2.last_play_time sound_name current_time
            play_count := dinsert s2.play_count sound_name
              ((dlookup s2.play_count sound_name).getD 0 + 1) })

/-- `AudioManager.stop_all`: `pygame.mixer.stop()` (external) and clear the
instance list; every other field is untouched. -/
def stop_all (s : AudioManagerState) : AudioManagerState :=
  { s with playing_instances := [] }

/-- `list.remove(x)`: drop the first element equal to `x`. -/
def removeFirst (l : List SoundInstance) (x : SoundInstance) :
    List SoundInstance :=
  match l with
  | [] => []
  | y :: t => if y = x then t else y :: removeFirst t x

/-- The loop of `AudioManager.stop_sound`: iterate over a copy of the
instance list; for each instance of the named sound whose channel is still
busy, stop the channel (clearing its busy flag for the rest of the loop),
remove the instance from the live list, and count it. -/
def stop_sound_go (sound_name : String) :
    List SoundInstance → (ℕ → Bool) → List SoundInstance → ℕ →
    List SoundInstance × ℕ
  | [], _, cur, count => (cur, count)
  | inst :: rest, busy, cur, count =>
    if inst.sound_name = sound_name ∧ busy inst.channel_id then
      stop_sound_go sound_name rest
        (fun j => if j = inst.channel_id then false else busy j)
        (removeFirst cur inst) (count + 1)
    else stop_sound_go sound_name rest busy cur count

/-- `AudioManager.stop_sound`: returns the number of stopped instances and
the updated state. -/
def stop_sound (busy : ℕ → Bool) (s : AudioManagerState)
    (sound_name : String) : ℕ × AudioManagerState :=
  let r := stop_sound_go sound_name s.playing_instances busy
    s.playing_instances 0
  (r.2, { s with playing_instances := r.1 })

/-- `AudioManager.pause_all` / `AudioManager.unpause_all`: pure mixer
calls; the manager state is untouched. -/
def pause_all (s : AudioManagerState) : AudioManagerState := s

def unpause_all (s : AudioManagerState) : AudioManagerState := s

/-- `max(0.0, min(1.0, volume))` as used by the volume setters. -/
def clamp01 (v : ℚ) : ℚ := max 0 (min 1 v)

/-- `AudioManager._update_all_volumes`: re-apply
`base_volume * master_volume * sfx_volume` to every loaded sound. -/
def update_all_volumes (s : AudioManagerState) : AudioManagerState :=
  { s with
    sounds := s.sounds.map (fun p =>
      (p.1, ((dlookup s.sound_configs p.1).getD {}).volume.getD 1 *
        s.master_volume * s.sfx_volume)) }

/-- `AudioManager.set_master_volume`: clamp to [0,1], store, re-apply all
volumes. -/
def set_master_volume (s : AudioManagerState) (volume : ℚ) :
    AudioManagerState :=
  update_all_volumes { s with master_volume := clamp01 volume }

/-- `AudioManager.set_sfx_volume`: clamp to [0,1], store, re-apply all
volumes. -/
def set_sfx_volume (s : AudioManagerState) (volume : ℚ) :
    AudioManagerState :=
  update_all_volumes { s with sfx_volume := clamp01 volume }

/-- `AudioManager.update`: drop every instance at least `max_age = 10.0`
seconds old, regardless of channel state. -/
def update (current_time : ℚ) (s : AudioManagerState) : AudioManagerState :=
  { s with
    playing_instances :=
      s.playing_instances.filter (fun i =>
        decide (current_time - i.start_time < 10)) }

/-- `AudioManager.get_sound_info`: for a loaded sound, its config together
with its play count (the `is_loaded` flag is implied by `some`). -/
def get_sound_info (s : AudioManagerState) (sound_name : String) :
    Option (SoundConfig × ℕ) :=
  if (dlookup s.sounds sound_name).isSome then
    some ((dlookup s.sound_configs sound_name).getD {},
      (dlookup s.play_count sound_name).getD 0)
  else none

/-- The channel-pool invariant of the spec's data model: at most one
playback instance references a given channel identifier. -/
def uniqueChannelIds (l : List SoundInstance) : Prop :=
  (l.map (fun i => i.channel_id)).Nodup

instance (l : List SoundInstance) : Decidable (uniqueChannelIds l) :=
  inferInstanceAs (Decidable (List.Nodup _))

/-- The per-sound configuration `play` works with:
`self.sound_configs.get(sound_name, {})`. -/
def configOf (s : AudioManagerState) (sound_name : String) : SoundConfig :=
  (dlookup s.sound_configs sound_name).getD {}

/-- The effective minimum replay delay of a sound:
`config.get('min_delay', AudioConfig.MIN_PLAY_DELAY)`. -/
def minDelayOf (env : AudioConfigData) (s : AudioManagerState)
    (sound_name : String) : ℚ :=
  (configOf s sound_name).min_delay.getD env.MIN_PLAY_DELAY

/-- The effective maximum instance count of a sound:
`config.get('max_instances', AudioConfig.MAX_SOUND_INSTANCES)`. -/
def maxInstancesOf (env : AudioConfigData) (s : AudioManagerState)
    (sound_name : String) : ℕ :=
  (configOf s sound_name).max_instances.getD env.MAX_SOUND_INSTANCES

/-! ## Concrete fixtures for counterexamples and witnesses -/

/-- An environment with no static sound mappings, default max 8 concurrent
instances, no process-wide minimum delay, and no loadable files. -/
def envA : AudioConfigData :=
  { MAX_SOUND_INSTANCES := 8
    MIN_PLAY_DELAY := 0
    SOUND_MAPPINGS := []
    get_sfx_path := fun sound_name => sound_name
    path_exists := fun _ => false
    decode_ok := fun _ => false }

/-- Like `envA` but with a process-wide minimum replay delay of 1 second. -/
def envB : AudioConfigData :=
  { envA with MIN_PLAY_DELAY := 1 }

/-- Like `envA` but every file exists and decodes. -/
def envL : AudioConfigData :=
  { envA with path_exists := fun _ => true, decode_ok := fun _ => true }

/-- One loaded sound, nothing playing, never played. -/
def stOne : AudioManagerState :=
  { sounds := [("a", 1)]
    sound_configs := [("a", {})]
    playing_instances := []
    last_play_time := []
    play_count := [("a", 0)]
    master_volume := 1
    sfx_volume := 1 }

/-- Two loaded sounds; one stale recorded instance of "a" on channel 0
(its sound already finished, so the channel can read as free). -/
def stDup : AudioManagerState :=
  { sounds := [("a", 1), ("b", 1)]
    sound_configs := [("a", {}), ("b", {})]
    playing_instances := [⟨"a", 0, 0⟩]
    last_play_time := [("a", 0)]
    play_count := [("a", 1), ("b", 0)]
    master_volume := 1
    sfx_volume := 1 }

/-- One loaded sound capped at one concurrent instance, currently active. -/
def stCap : AudioManagerState :=
  { sounds := [("a", 1)]
    sound_configs := [("a", { max_instances := some 1 })]
    playing_instances := [⟨"a", 0, 0⟩]
    last_play_time := [("a", 0)]
    play_count := [("a", 1)]
    master_volume := 1
    sfx_volume := 1 }

/-- One loaded sound last played at time 0, nothing active. -/
def stRate : AudioManagerState :=
  { sounds := [("a", 1)]
    sound_configs := [("a", {})]
    playing_instances := []
    last_play_time := [("a", 0)]
    play_count := [("a", 1)]
    master_volume := 1
    sfx_volume := 1 }

/-- The empty manager state. -/
def stEmpty : AudioManagerState :=
  { sounds := []
    sound_configs := []
    playing_instances := []
    last_play_time := []
    play_count := []
    master_volume := 1
    sfx_volume := 1 }

/-- The state after a fresh successful load of "a" into `stEmpty` under
`envL` (spelled exactly as `load_sound` computes it). -/
def stLoaded : AudioManagerState :=
  { sounds := [("a", (configFor envL "a" none).volume.getD 1 *
      stEmpty.master_volume * stEmpty.sfx_volume)]
    sound_configs := [("a", configFor envL "a" none)]
    playing_instances := []
    last_play_time := []
    play_count := [("a", 0)]
    master_volume := 1
    sfx_volume := 1 }

/-! ## Dictionary lemmas -/

theorem dlookup_dinsert_self {α : Type} (l : List (String × α)) (k : String)
    (v : α) : dlookup (dinsert l k v) k = some v := by
  induction l with
  | nil => simp [dinsert, dlookup]
  | cons p t ih =>
    obtain ⟨k1, v1⟩ := p
    by_cases h : k1 = k <;> simp [dinsert, dlookup, h, ih]

theorem dlookup_dinsert_ne {α : Type} (l : List (String × α)) (k k1 : String)
    (v : α) (h : k1 ≠ k) : dlookup (dinsert l k v) k1 = dlookup l k1 := by
  induction l with
  | nil => simp [dinsert, dlookup, Ne.symm h]
  | cons p t ih =>
    obtain ⟨k2, v2⟩ := p
    by_cases hk : k2 = k
    · subst hk
      simp [dinsert, dlookup, Ne.symm h]
    · simp [dinsert, dlookup, hk, ih]

theorem dlookup_map_value {α β : Type} (l : List (String × α))
    (g : String → β) (k : String) :
    dlookup (l.map (fun p => (p.1, g p.1))) k =
      (dlookup l k).map (fun _ => g k) := by
  induction l with
  | nil => rfl
  | cons p t ih =>
    obtain ⟨k1, v1⟩ := p
    by_cases h : k1 = k <;> simp [dlookup, h, ih]

/-! ## Instance-list structure lemmas -/

theorem removeFirst_sublist (l : List SoundInstance) (x : SoundInstance) :
    List.Sublist (removeFirst l x) l := by
  induction l with
  | nil => simp [removeFirst]
  | cons y t ih =>
    unfold removeFirst
    by_cases h : y = x
    · simp only [if_pos h]
      exact List.sublist_cons_self y t
    · simpa [h] using List.Sublist.cons₂ y ih

theorem stop_sound_go_sublist (sound_name : String)
    (todo : List SoundInstance) :
    ∀ (busy : ℕ → Bool) (cur : List SoundInstance) (k : ℕ),
      List.Sublist (stop_sound_go sound_name todo busy cur k).1 cur := by
  induction todo with
  | nil =>
    intro busy cur k
    simp [stop_sound_go]
  | cons inst rest ih =>
    intro busy cur k
    unfold stop_sound_go
    by_cases h : inst.sound_name = sound_name ∧ busy inst.channel_id
    · rw [if_pos h]
      exact (ih _ _ _).trans (removeFirst_sublist cur inst)
    · rw [if_neg h]
      exact ih _ _ _

theorem oldest_of_mem (x : SoundInstance) (xs : List SoundInstance) :
    oldest_of x xs ∈ x :: xs := by
  unfold oldest_of
  induction xs generalizing x with
  | nil => simp
  | cons y ys ih =>
    rw [List.foldl_cons]
    have h := ih (if y.start_time < x.start_time then y else x)
    rcases List.mem_cons.1 h with h1 | h1
    · rw [h1]
      by_cases hc : y.start_time < x.start_time
      · simp [hc]
      · simp [hc]
    · simp [List.mem_cons.2 (Or.inr (List.mem_cons.2 (Or.inr h1)))]

theorem oldest_of_le (x : SoundInstance) (xs : List SoundInstance) :
    ∀ y ∈ x :: xs, (oldest_of x xs).start_time ≤ y.start_time := by
  unfold oldest_of
  induction xs generalizing x with
  | nil =>
    intro y hy
    simp only [List.mem_singleton] at hy
    subst hy
    exact le_refl _
  | cons z zs ih =>
    intro y hy
    rw [List.foldl_cons]
    have hsm := ih (if z.start_time < x.start_time then z else x)
    rcases List.mem_cons.1 hy with hyx | hy2
    · rw [hyx]
      have h1 := hsm _ (List.mem_cons_self _ _)
      by_cases hc : z.start_time < x.start_time
      · rw [if_pos hc] at h1 ⊢
        exact h1.trans hc.le
      · rw [if_neg hc] at h1 ⊢
        exact h1
    · rcases List.mem_cons.1 hy2 with hyz | hy3
      · rw [hyz]
        have h1 := hsm _ (List.mem_cons_self _ _)
        by_cases hc : z.start_time < x.start_time
        · rw [if_pos hc] at h1 ⊢
          exact h1
        · rw [if_neg hc] at h1 ⊢
          push_neg at hc
          exact h1.trans hc
      · exact hsm y (List.mem_cons.2 (Or.inr hy3))

theorem nodup_lt_length_le (l : List ℕ) (n : ℕ) (hn : l.Nodup)
    (hlt : ∀ x ∈ l, x < n) : l.length ≤ n := by
  have h1 : l.toFinset ⊆ Finset.range n := by
    intro x hx
    exact Finset.mem_range.2 (hlt x (List.mem_toFinset.1 hx))
  have h2 := Finset.card_le_card h1
  rwa [List.toFinset_card_of_nodup hn, Finset.card_range] at h2

/-! ## Channel acquisition lemmas -/

theorem find_available_channel_none_iff (busy : ℕ → Bool) (n : ℕ)
    (instances : List SoundInstance) :
    find_available_channel busy n instances = none ↔
      (∀ i, i < n → busy i = true) ∧ instances = [] := by
  constructor
  · intro h
    unfold find_available_channel at h
    cases hf : (List.range n).find? (fun i => !busy i) with
    | some i =>
      rw [hf] at h
      simp at h
    | none =>
      rw [hf] at h
      cases instances with
      | nil =>
        refine ⟨?_, rfl⟩
        intro i hi
        have h2 := List.find?_eq_none.1 hf i (List.mem_range.2 hi)
        simpa using h2
      | cons x xs => simp at h
  · rintro ⟨hb, rfl⟩
    unfold find_available_channel
    have hf : (List.range n).find? (fun i => !busy i) = none := by
      apply List.find?_eq_none.2
      intro i hi
      simp [hb i (List.mem_range.1 hi)]
    rw [hf]

theorem find_available_channel_some_cases (busy : ℕ → Bool) (n : ℕ)
    (instances : List SoundInstance) (ch : ℕ) (insts : List SoundInstance)
    (h : find_available_channel busy n instances = some (ch, insts)) :
    (busy ch = false ∧ ch < n ∧ insts = instances) ∨
    ((∃ inst ∈ instances, inst.channel_id = ch ∧
        ∀ other ∈ instances, inst.start_time ≤ other.start_time) ∧
      insts = instances.filter (fun i => i.channel_id ≠ ch)) := by
  unfold find_available_channel at h
  cases hf : (List.range n).find? (fun i => !busy i) with
  | some i =>
    rw [hf] at h
    simp only [Option.some.injEq, Prod.mk.injEq] at h
    obtain ⟨h1, h2⟩ := h
    subst h1
    subst h2
    left
    refine ⟨?_, ?_, rfl⟩
    · have hb := List.find?_some hf
      simpa using hb
    · have hm := List.mem_of_find?_eq_some hf
      exact List.mem_range.1 hm
  | none =>
    rw [hf] at h
    cases instances with
    | nil => simp at h
    | cons x xs =>
      simp only [Option.some.injEq, Prod.mk.injEq] at h
      obtain ⟨h1, h2⟩ := h
      subst h1
      right
      exact ⟨⟨oldest_of x xs, oldest_of_mem x xs, rfl, oldest_of_le x xs⟩,
        h2.symm⟩

theorem find_available_channel_free (busy : ℕ → Bool) (n : ℕ)
    (instances : List SoundInstance) (i : ℕ) (hi : i < n)
    (hfree : busy i = false) :
    ∃ j, j < n ∧ busy j = false ∧
      find_available_channel busy n instances = some (j, instances) := by
  cases hf : (List.range n).find? (fun k => !busy k) with
  | none =>
    exfalso
    have h1 := List.find?_eq_none.1 hf i (List.mem_range.2 hi)
    simp [hfree] at h1
  | some j =>
    refine ⟨j, List.mem_range.1 (List.mem_of_find?_eq_some hf), ?_, ?_⟩
    · have h1 := List.find?_some hf
      simpa using h1
    · unfold find_available_channel
      rw [hf]

theorem find_available_channel_some_cases_strong (busy : ℕ → Bool) (n : ℕ)
    (instances : List SoundInstance) (ch : ℕ) (insts : List SoundInstance)
    (h : find_available_channel busy n instances = some (ch, insts)) :
    (busy ch = false ∧ ch < n ∧ insts = instances) ∨
    ((∀ i, i < n → busy i = true) ∧
      (∃ inst ∈ instances, inst.channel_id = ch ∧
        ∀ other ∈ instances, inst.start_time ≤ other.start_time) ∧
      insts = instances.filter (fun i => i.channel_id ≠ ch)) := by
  unfold find_available_channel at h
  cases hf : (List.range n).find? (fun i => !busy i) with
  | some i =>
    rw [hf] at h
    simp only [Option.some.injEq, Prod.mk.injEq] at h
    obtain ⟨h1, h2⟩ := h
    subst h1
    subst h2
    left
    refine ⟨?_, ?_, rfl⟩
    · have hb := List.find?_some hf
      simpa using hb
    · have hm := List.mem_of_find?_eq_some hf
      exact List.mem_range.1 hm
  | none =>
    rw [hf] at h
    cases instances with
    | nil => simp at h
    | cons x xs =>
      simp only [Option.some.injEq, Prod.mk.injEq] at h
      obtain ⟨h1, h2⟩ := h
      subst h1
      right
      refine ⟨?_,
        ⟨oldest_of x xs, oldest_of_mem x xs, rfl, oldest_of_le x xs⟩,
        h2.symm⟩
      intro i hi
      have h3 := List.find?_eq_none.1 hf i (List.mem_range.2 hi)
      simpa using h3

theorem mem_filter_ne_channel (l : List SoundInstance) (ch : ℕ)
    (inst : SoundInstance)
    (h : inst ∈ l.filter (fun i => i.channel_id ≠ ch)) :
    inst ∈ l ∧ inst.channel_id ≠ ch := by
  have h1 := List.mem_filter.1 h
  simpa using h1

theorem filter_ne_channel_length_lt (l : List SoundInstance) (ch : ℕ)
    (h : ∃ inst ∈ l, inst.channel_id = ch) :
    (l.filter (fun i => i.channel_id ≠ ch)).length < l.length := by
  obtain ⟨inst, hm, hc⟩ := h
  apply List.length_filter_lt_length_iff_exists.2
  exact ⟨inst, hm, by simp [hc]⟩

/-! ## `play` branch lemmas -/

theorem load_sound_playing_instances (env : AudioConfigData)
    (s : AudioManagerState) (sound_name : String) (file_path : Option String)
    (category : Option String) :
    (load_sound env s sound_name file_path category).2.playing_instances =
      s.playing_instances := by
  unfold load_sound
  dsimp only
  repeat' split
  all_goals rfl

theorem loadStep_playing_instances (env : AudioConfigData)
    (s : AudioManagerState) (sound_name : String) :
    (loadStep env s sound_name).2.playing_instances = s.playing_instances := by
  unfold loadStep
  split
  · rfl
  · exact load_sound_playing_instances env s sound_name none none

theorem loadStep_loaded (env : AudioConfigData) (s : AudioManagerState)
    (sound_name : String)
    (h : (dlookup s.sounds sound_name).isSome = true) :
    loadStep env s sound_name = (true, s) := by
  simp [loadStep, h]

theorem play_notLoaded_eq (env : AudioConfigData) (busy : ℕ → Bool) (n : ℕ)
    (now : ℚ) (s s1 : AudioManagerState) (sound_name : String) (v : ℚ)
    (hstep : loadStep env s sound_name = (false, s1)) :
    play env busy n now s sound_name v = (.notLoaded, s1) := by
  unfold play
  rw [hstep]

theorem play_step_rateLimited (env : AudioConfigData) (busy : ℕ → Bool)
    (n : ℕ) (now : ℚ) (s s1 : AudioManagerState) (sound_name : String)
    (v : ℚ) (hstep : loadStep env s sound_name = (true, s1))
    (hc : can_play_sound env now s1 sound_name (configOf s1 sound_name) =
      .rateLimited) :
    play env busy n now s sound_name v = (.rateLimited, s1) := by
  unfold play
  rw [hstep]
  simp only [configOf] at hc
  simp [hc]

theorem play_step_concurrencyLimited (env : AudioConfigData) (busy : ℕ → Bool)
    (n : ℕ) (now : ℚ) (s s1 : AudioManagerState) (sound_name : String)
    (v : ℚ) (hstep : loadStep env s sound_name = (true, s1))
    (hc : can_play_sound env now s1 sound_name (configOf s1 sound_name) =
      .concurrencyLimited) :
    play env busy n now s sound_name v = (.concurrencyLimited, s1) := by
  unfold play
  rw [hstep]
  simp only [configOf] at hc
  simp [hc]

theorem play_step_noChannel (env : AudioConfigData) (busy : ℕ → Bool)
    (n : ℕ) (now : ℚ) (s s1 : AudioManagerState) (sound_name : String)
    (v : ℚ) (hstep : loadStep env s sound_name = (true, s1))
    (hc : can_play_sound env now s1 sound_name (configOf s1 sound_name) = .ok)
    (hacq : find_available_channel busy n s1.playing_instances = none) :
    play env busy n now s sound_name v =
      (.noChannelAvailable,
        { s1 with
          sounds := dinsert s1.sounds sound_name
            (max 0 (min 1 ((configOf s1 sound_name).volume.getD 1 * v *
              s1.master_volume * s1.sfx_volume))) }) := by
  unfold play
  rw [hstep]
  simp only [configOf] at hc ⊢
  simp [hc, hacq]

theorem play_step_success (env : AudioConfigData) (busy : ℕ → Bool)
    (n : ℕ) (now : ℚ) (s s1 : AudioManagerState) (sound_name : String)
    (v : ℚ) (ch : ℕ) (insts : List SoundInstance)
    (hstep : loadStep env s sound_name = (true, s1))
    (hc : can_play_sound env now s1 sound_name (configOf s1 sound_name) = .ok)
    (hacq : find_available_channel busy n s1.playing_instances =
      some (ch, insts)) :
    play env busy n now s sound_name v =
      (.success,
        { sounds := dinsert s1.sounds sound_name
            (max 0 (min 1 ((configOf s1 sound_name).volume.getD 1 * v *
              s1.master_volume * s1.sfx_volume)))
          sound_configs := s1.sound_configs
          playing_instances := insts ++ [⟨sound_name, now, ch⟩]
          last_play_time := dinsert s1.last_play_time sound_name now
          play_count := dinsert s1.play_count sound_name
            ((dlookup s1.play_count sound_name).getD 0 + 1)
          master_volume := s1.master_volume
          sfx_volume := s1.sfx_volume }) := by
  unfold play
  rw [hstep]
  simp only [configOf] at hc ⊢
  simp [hc, hacq]

theorem play_playing_instances_spec (env : AudioConfigData) (busy : ℕ → Bool)
    (n : ℕ) (now : ℚ) (s : AudioManagerState) (sound_name : String) (v : ℚ) :
    (play env busy n now s sound_name v).2.playing_instances =
      s.playing_instances ∨
    ∃ ch insts,
      find_available_channel busy n s.playing_instances = some (ch, insts) ∧
      (play env busy n now s sound_name v).2.playing_instances =
        insts ++ [⟨sound_name, now, ch⟩] := by
  cases hstep : loadStep env s sound_name with
  | mk ok s1 =>
    have hp : s1.playing_instances = s.playing_instances := by
      have h2 := loadStep_playing_instances env s sound_name
      rw [hstep] at h2
      exact h2
    cases ok with
    | false =>
      left
      rw [play_notLoaded_eq env busy n now s s1 sound_name v hstep]
      exact hp
    | true =>
      cases hc : can_play_sound env now s1 sound_name (configOf s1 sound_name) with
      | rateLimited =>
        left
        rw [play_step_rateLimited env busy n now s s1 sound_name v hstep hc]
        exact hp
      | concurrencyLimited =>
        left
        rw [play_step_concurrencyLimited env busy n now s s1 sound_name v
          hstep hc]
        exact hp
      | ok =>
        cases hacq : find_available_channel busy n s1.playing_instances with
        | none =>
          left
          rw [play_step_noChannel env busy n now s s1 sound_name v hstep hc
            hacq]
          exact hp
        | some p =>
          obtain ⟨ch, insts⟩ := p
          right
          refine ⟨ch, insts, ?_, ?_⟩
          · rw [← hp]
            exact hacq
          · rw [play_step_success env busy n now s s1 sound_name v ch insts
              hstep hc hacq]

/-! ## Invariant preservation helpers -/

theorem acquired_channel_not_referenced (busy : ℕ → Bool) (n : ℕ)
    (instances : List SoundInstance) (ch : ℕ) (insts : List SoundInstance)
    (hacq : find_available_channel busy n instances = some (ch, insts))
    (hcover : ∀ inst ∈ instances, busy inst.channel_id = true) :
    ∀ inst ∈ insts, inst.channel_id ≠ ch := by
  rcases find_available_channel_some_cases busy n instances ch insts hacq with
    ⟨hb, _, hi⟩ | ⟨_, hi⟩
  · subst hi
    intro inst hm hch
    have h1 := hcover inst hm
    rw [hch, hb] at h1
    cases h1
  · subst hi
    intro inst hm
    exact (mem_filter_ne_channel instances ch inst hm).2

theorem play_preserves_uniqueChannelIds (env : AudioConfigData)
    (busy : ℕ → Bool) (n : ℕ) (now : ℚ) (s : AudioManagerState)
    (sound_name : String) (v : ℚ)
    (hcover : ∀ inst ∈ s.playing_instances, busy inst.channel_id = true)
    (hinv : uniqueChannelIds s.playing_instances) :
    uniqueChannelIds
      ((play env busy n now s sound_name v).2.playing_instances) := by
  rcases play_playing_instances_spec env busy n now s sound_name v with
    h | ⟨ch, insts, hacq, h⟩
  · rw [h]
    exact hinv
  · rw [h]
    unfold uniqueChannelIds at hinv ⊢
    rw [List.map_append, List.nodup_append]
    have hsub : List.Sublist insts s.playing_instances := by
      rcases find_available_channel_some_cases busy n s.playing_instances ch
        insts hacq with ⟨_, _, hi⟩ | ⟨_, hi⟩
      · rw [hi]
      · rw [hi]
        exact List.filter_sublist _
    refine ⟨hinv.sublist (List.Sublist.map _ hsub), List.nodup_singleton _, ?_⟩
    intro x hx hx2
    simp only [List.map_cons, List.map_nil, List.mem_singleton] at hx2
    obtain ⟨inst, hm, hcid⟩ := List.mem_map.1 hx
    exact acquired_channel_not_referenced busy n s.playing_instances ch insts
      hacq hcover inst hm (hcid.trans hx2)

theorem play_preserves_channel_range (env : AudioConfigData)
    (busy : ℕ → Bool) (n : ℕ) (now : ℚ) (s : AudioManagerState)
    (sound_name : String) (v : ℚ)
    (hrange : ∀ inst ∈ s.playing_instances, inst.channel_id < n) :
    ∀ inst ∈ (play env busy n now s sound_name v).2.playing_instances,
      inst.channel_id < n := by
  rcases play_playing_instances_spec env busy n now s sound_name v with
    h | ⟨ch, insts, hacq, h⟩
  · rw [h]
    exact hrange
  · rw [h]
    intro inst hm
    rcases List.mem_append.1 hm with hm1 | hm1
    · rcases find_available_channel_some_cases busy n s.playing_instances ch
        insts hacq with ⟨_, _, hi⟩ | ⟨_, hi⟩
      · rw [hi] at hm1
        exact hrange inst hm1
      · rw [hi] at hm1
        exact hrange inst (mem_filter_ne_channel _ _ _ hm1).1
    · simp only [List.mem_singleton] at hm1
      subst hm1
      rcases find_available_channel_some_cases busy n s.playing_instances ch
        insts hacq with ⟨_, hlt, _⟩ | ⟨⟨inst2, hm2, hc2, _⟩, _⟩
      · exact hlt
      · rw [← hc2]
        exact hrange inst2 hm2

theorem play_length_le (env : AudioConfigData) (busy : ℕ → Bool) (n : ℕ)
    (now : ℚ) (s : AudioManagerState) (sound_name : String) (v : ℚ)
    (hcover : ∀ inst ∈ s.playing_instances, busy inst.channel_id = true)
    (hinv : uniqueChannelIds s.playing_instances)
    (hrange : ∀ inst ∈ s.playing_instances, inst.channel_id < n) :
    (play env busy n now s sound_name v).2.playing_instances.length ≤ n := by
  unfold uniqueChannelIds at hinv
  have hlen : s.playing_instances.length ≤ n := by
    have h1 := nodup_lt_length_le
      (s.playing_instances.map (fun i => i.channel_id)) n hinv ?_
    · rwa [List.length_map] at h1
    · intro x hx
      obtain ⟨inst, hm, hcid⟩ := List.mem_map.1 hx
      rw [← hcid]
      exact hrange inst hm
  rcases play_playing_instances_spec env busy n now s sound_name v with
    h | ⟨ch, insts, hacq, h⟩
  · rw [h]
    exact hlen
  · rw [h, List.length_append, List.length_singleton]
    rcases find_available_channel_some_cases busy n s.playing_instances ch
      insts hacq with ⟨hb, hlt, hi⟩ | ⟨⟨inst2, hm2, hc2, _⟩, hi⟩
    · subst hi
      have hfresh : ch ∉ s.playing_instances.map (fun i => i.channel_id) := by
        intro hc
        obtain ⟨inst, hm, hcid⟩ := List.mem_map.1 hc
        have h1 := hcover inst hm
        rw [hcid, hb] at h1
        cases h1
      have h2 := nodup_lt_length_le
        (ch :: s.playing_instances.map (fun i => i.channel_id)) n
        (List.nodup_cons.2 ⟨hfresh, hinv⟩) ?_
      · simpa [List.length_map, Nat.add_comm] using h2
      · intro x hx
        rcases List.mem_cons.1 hx with hx1 | hx1
        · rw [hx1]
          exact hlt
        · obtain ⟨inst, hm, hcid⟩ := List.mem_map.1 hx1
          rw [← hcid]
          exact hrange inst hm
    · subst hi
      have hflt := filter_ne_channel_length_lt s.playing_instances ch
        ⟨inst2, hm2, hc2⟩
      omega

theorem stop_sound_playing_sublist (busy : ℕ → Bool) (s : AudioManagerState)
    (sound_name : String) :
    List.Sublist (stop_sound busy s sound_name).2.playing_instances
      s.playing_instances := by
  unfold stop_sound
  exact stop_sound_go_sublist sound_name s.playing_instances busy
    s.playing_instances 0

/-! ## Rate and concurrency check lemmas -/

theorem can_play_sound_rateLimited_iff (env : AudioConfigData) (now : ℚ)
    (s : AudioManagerState) (sound_name : String) (config : SoundConfig)
    (last : ℚ)
    (hlast : dlookup s.last_play_time sound_name = some last) :
    (can_play_sound env now s sound_name config = .rateLimited ↔
      now - last < config.min_delay.getD env.MIN_PLAY_DELAY) := by
  unfold can_play_sound
  rw [hlast]
  by_cases h : now - last < config.min_delay.getD env.MIN_PLAY_DELAY
  · simp [h]
  · have hd : decide (now - last < config.min_delay.getD env.MIN_PLAY_DELAY) =
        false := decide_eq_false h
    simp only [hd, Bool.false_eq_true, if_false]
    constructor
    · intro h2
      exfalso
      by_cases hcnt : config.max_instances.getD env.MAX_SOUND_INSTANCES ≤
        List.countP (fun i => i.sound_name == sound_name) s.playing_instances
      · rw [if_pos hcnt] at h2
        exact PlayCheck.noConfusion h2
      · rw [if_neg hcnt] at h2
        exact PlayCheck.noConfusion h2
    · intro h2
      exact absurd h2 h

theorem can_play_sound_concurrency (env : AudioConfigData) (now : ℚ)
    (s : AudioManagerState) (sound_name : String) (config : SoundConfig)
    (hrate : ∀ last, dlookup s.last_play_time sound_name = some last →
      ¬(now - last < config.min_delay.getD env.MIN_PLAY_DELAY))
    (hcount : config.max_instances.getD env.MAX_SOUND_INSTANCES ≤
      s.playing_instances.countP (fun i => i.sound_name == sound_name)) :
    can_play_sound env now s sound_name config = .concurrencyLimited := by
  unfold can_play_sound
  have hbit :
      (match dlookup s.last_play_time sound_name with
        | some last =>
          decide (now - last < config.min_delay.getD env.MIN_PLAY_DELAY)
        | none => false) = false := by
    cases hl2 : dlookup s.last_play_time sound_name with
    | some last => simpa using hrate last hl2
    | none => rfl
  rw [hbit]
  simp [hcount]

theorem can_play_sound_ne_ok_of_count (env : AudioConfigData) (now : ℚ)
    (s : AudioManagerState) (sound_name : String) (config : SoundConfig)
    (hcount : config.max_instances.getD env.MAX_SOUND_INSTANCES ≤
      s.playing_instances.countP (fun i => i.sound_name == sound_name)) :
    can_play_sound env now s sound_name config ≠ .ok := by
  unfold can_play_sound
  dsimp only
  split
  · simp
  · simp [hcount]

theorem play_rateLimited_iff (env : AudioConfigData) (busy : ℕ → Bool)
    (n : ℕ) (now : ℚ) (s : AudioManagerState) (sound_name : String) (v : ℚ)
    (hl : (dlookup s.sounds sound_name).isSome = true) :
    ((play env busy n now s sound_name v).1 = .rateLimited ↔
      can_play_sound env now s sound_name (configOf s sound_name) =
        .rateLimited) := by
  have hstep := loadStep_loaded env s sound_name hl
  cases hc : can_play_sound env now s sound_name (configOf s sound_name) with
  | rateLimited =>
    rw [play_step_rateLimited env busy n now s s sound_name v hstep hc]
    simp
  | concurrencyLimited =>
    rw [play_step_concurrencyLimited env busy n now s s sound_name v hstep hc]
    simp
  | ok =>
    cases hacq : find_available_channel busy n s.playing_instances with
    | none =>
      rw [play_step_noChannel env busy n now s s sound_name v hstep hc hacq]
      simp
    | some p =>
      obtain ⟨ch, insts⟩ := p
      rw [play_step_success env busy n now s s sound_name v ch insts hstep hc
        hacq]
      simp

theorem play_ne_success_of_check_ne_ok (env : AudioConfigData)
    (busy : ℕ → Bool) (n : ℕ) (now : ℚ) (s : AudioManagerState)
    (sound_name : String) (v : ℚ)
    (hl : (dlookup s.sounds sound_name).isSome = true)
    (hne : can_play_sound env now s sound_name (configOf s sound_name) ≠ .ok) :
    (play env busy n now s sound_name v).1 ≠ .success := by
  have hstep := loadStep_loaded env s sound_name hl
  cases hc : can_play_sound env now s sound_name (configOf s sound_name) with
  | rateLimited =>
    rw [play_step_rateLimited env busy n now s s sound_name v hstep hc]
    simp
  | concurrencyLimited =>
    rw [play_step_concurrencyLimited env busy n now s s sound_name v hstep hc]
    simp
  | ok => exact absurd hc hne

theorem play_success_effects (env : AudioConfigData) (busy : ℕ → Bool)
    (n : ℕ) (now : ℚ) (s : AudioManagerState) (sound_name : String) (v : ℚ)
    (hl : (dlookup s.sounds sound_name).isSome = true)
    (hsucc : (play env busy n now s sound_name v).1 = .success) :
    (play env busy n now s sound_name v).2.sound_configs = s.sound_configs ∧
    (play env busy n now s sound_name v).2.play_count =
      dinsert s.play_count sound_name
        ((dlookup s.play_count sound_name).getD 0 + 1) ∧
    (play env busy n now s sound_name v).2.last_play_time =
      dinsert s.last_play_time sound_name now ∧
    (dlookup (play env busy n now s sound_name v).2.sounds
      sound_name).isSome = true := by
  have hstep := loadStep_loaded env s sound_name hl
  cases hc : can_play_sound env now s sound_name (configOf s sound_name) with
  | rateLimited =>
    rw [play_step_rateLimited env busy n now s s sound_name v hstep hc]
      at hsucc
    simp at hsucc
  | concurrencyLimited =>
    rw [play_step_concurrencyLimited env busy n now s s sound_name v hstep hc]
      at hsucc
    simp at hsucc
  | ok =>
    cases hacq : find_available_channel busy n s.playing_instances with
    | none =>
      rw [play_step_noChannel env busy n now s s sound_name v hstep hc hacq]
        at hsucc
      simp at hsucc
    | some p =>
      obtain ⟨ch, insts⟩ := p
      rw [play_step_success env busy n now s s sound_name v ch insts hstep hc
        hacq]
      refine ⟨rfl, rfl, rfl, ?_⟩
      rw [dlookup_dinsert_self]
      rfl

/-! ## Volume lemmas -/

theorem clamp01_of_neg {v : ℚ} (h : v < 0) : clamp01 v = 0 := by
  unfold clamp01
  rw [min_eq_right (h.le.trans zero_le_one), max_eq_left h.le]

theorem clamp01_of_one_lt {v : ℚ} (h : 1 < v) : clamp01 v = 1 := by
  unfold clamp01
  rw [min_eq_left h.le, max_eq_right zero_le_one]

theorem clamp01_zero : clamp01 0 = 0 := by
  unfold clamp01
  rw [min_eq_right zero_le_one, max_self]

theorem clamp01_one : clamp01 1 = 1 := by
  unfold clamp01
  rw [min_self, max_eq_right zero_le_one]

theorem update_all_volumes_idem (t : AudioManagerState) :
    update_all_volumes (update_all_volumes t) = update_all_volumes t := by
  unfold update_all_volumes
  dsimp only
  rw [List.map_map]
  rfl

theorem dlookup_update_all_volumes (s : AudioManagerState) (k : String) :
    dlookup (update_all_volumes s).sounds k =
      (dlookup s.sounds k).map (fun _ =>
        ((dlookup s.sound_configs k).getD {}).volume.getD 1 *
          s.master_volume * s.sfx_volume) := by
  unfold update_all_volumes
  dsimp only
  generalize s.sounds = l
  induction l with
  | nil => rfl
  | cons p t ih =>
    obtain ⟨k1, v1⟩ := p
    by_cases h : k1 = k
    · subst h
      simp [dlookup]
    · simp [dlookup, h, ih]

theorem instances_length_le (s : AudioManagerState) (n : ℕ)
    (hinv : uniqueChannelIds s.playing_instances)
    (hrange : ∀ inst ∈ s.playing_instances, inst.channel_id < n) :
    s.playing_instances.length ≤ n := by
  unfold uniqueChannelIds at hinv
  have h1 := nodup_lt_length_le
    (s.playing_instances.map (fun i => i.channel_id)) n hinv ?_
  · rwa [List.length_map] at h1
  · intro x hx
    obtain ⟨inst, hm, hcid⟩ := List.mem_map.1 hx
    rw [← hcid]
    exact hrange inst hm

/-! ## Claim C1 -/

/-- C1 counterexample: with a pool of one channel (size ≥ 1), every channel
busy and no recorded active instance (as after the staleness sweep), the
`play` request fails with `NoChannelAvailable`, refuting that channel
acquisition succeeds for every pool of size ≥ 1. -/
theorem C1_cex_noChannel_with_pool_one :
    1 ≤ (1 : ℕ) ∧
    (play envA (fun _ => true) 1 0 stOne "a" 1).1 =
      PlayResult.noChannelAvailable := by
  decide

/-- C1 (amended): channel acquisition prefers a free slot — whenever some
channel of the pool is free, a free channel is acquired and the active
instances are untouched — and it evicts only when every channel is busy,
in which case the evicted channel is that of an oldest active instance (by
start timestamp) and every instance on that channel is dropped; it fails
iff every channel is busy AND the active-instance list is empty, which can
happen for a pool of size ≥ 1. -/
theorem C1_channel_acquisition (busy : ℕ → Bool) (n : ℕ)
    (instances : List SoundInstance) :
    (find_available_channel busy n instances = none ↔
      (∀ i, i < n → busy i = true) ∧ instances = []) ∧
    (∀ i, i < n → busy i = false →
      ∃ j, j < n ∧ busy j = false ∧
        find_available_channel busy n instances = some (j, instances)) ∧
    (∀ ch insts,
      find_available_channel busy n instances = some (ch, insts) →
      (busy ch = false ∧ ch < n ∧ insts = instances) ∨
      ((∀ i, i < n → busy i = true) ∧
        (∃ inst ∈ instances, inst.channel_id = ch ∧
          ∀ other ∈ instances, inst.start_time ≤ other.start_time) ∧
        insts = instances.filter (fun i => i.channel_id ≠ ch))) :=
  ⟨find_available_channel_none_iff busy n instances,
    fun i hi hfree =>
      find_available_channel_free busy n instances i hi hfree,
    fun ch insts h =>
      find_available_channel_some_cases_strong busy n instances ch insts h⟩

/-! ## Claim C2 -/

/-- C2 counterexample: from a state satisfying the one-instance-per-channel
invariant, a successful `play` that picks a free channel still referenced
by a stale instance yields two instances bound to channel 0. -/
theorem C2_cex_duplicate_channel :
    uniqueChannelIds stDup.playing_instances ∧
    (play envA (fun _ => false) 1 5 stDup "b" 1).1 = PlayResult.success ∧
    ¬ uniqueChannelIds
      ((play envA (fun _ => false) 1 5 stDup "b" 1).2.playing_instances) := by
  decide

/-- C2 (amended): at most one playback instance references a given channel
id, and every operation of the manager preserves this PROVIDED the channel
of every recorded instance still reads busy when `play` is called; a
free-but-still-recorded channel (finished sound, bookkeeping not yet
swept) breaks the invariant, as the counterexample shows. -/
theorem C2_unique_channel_invariant (env : AudioConfigData)
    (busy : ℕ → Bool) (n : ℕ) (now : ℚ) (s : AudioManagerState)
    (sound_name : String) (v : ℚ)
    (hcover : ∀ inst ∈ s.playing_instances, busy inst.channel_id = true)
    (hinv : uniqueChannelIds s.playing_instances) :
    uniqueChannelIds
      ((play env busy n now s sound_name v).2.playing_instances) ∧
    uniqueChannelIds (stop_all s).playing_instances ∧
    uniqueChannelIds ((stop_sound busy s sound_name).2.playing_instances) ∧
    uniqueChannelIds (update now s).playing_instances ∧
    uniqueChannelIds
      ((load_sound env s sound_name none none).2.playing_instances) ∧
    uniqueChannelIds (set_master_volume s v).playing_instances ∧
    uniqueChannelIds (set_sfx_volume s v).playing_instances ∧
    uniqueChannelIds (pause_all s).playing_instances ∧
    uniqueChannelIds (unpause_all s).playing_instances := by
  refine ⟨play_preserves_uniqueChannelIds env busy n now s sound_name v
    hcover hinv, ?_, ?_, ?_, ?_, hinv, hinv, hinv, hinv⟩
  · unfold uniqueChannelIds stop_all
    simp
  · exact hinv.sublist
      (List.Sublist.map _ (stop_sound_playing_sublist busy s sound_name))
  · exact hinv.sublist (List.Sublist.map _ (List.filter_sublist _))
  · rw [load_sound_playing_instances]
    exact hinv

/-- C2 witness: the amended invariant holds after a concrete eviction
`play` from a covered state. -/
theorem C2_unique_channel_invariant_witness :
    uniqueChannelIds
      ((play envA (fun _ => true) 1 9 stDup "b" 1).2.playing_instances) :=
  (C2_unique_channel_invariant envA (fun _ => true) 1 9 stDup "b" 1
    (by decide) (by decide)).1

/-! ## Claim C3 -/

/-- C3 counterexample: a pool of one channel, one recorded (stale) instance
and a successful `play` leave two active instances — more than the pool
size — refuting the count invariant as stated. -/
theorem C3_cex_count_exceeds_pool :
    stDup.playing_instances.length ≤ 1 ∧
    (play envA (fun _ => false) 1 7 stDup "b" 1).1 = PlayResult.success ∧
    1 <
      (play envA (fun _ => false) 1 7 stDup "b" 1).2.playing_instances.length
    := by
  decide

/-- C3 (amended): the active-instance count stays within the pool size
across every operation PROVIDED instances reference pairwise-distinct
channels inside the pool and each referenced channel still reads busy when
`play` runs; `play` also re-establishes distinctness and the range bound.
Without the busy proviso a stale instance lets `play` exceed the pool
size, as the counterexample shows. -/
theorem C3_instance_count_invariant (env : AudioConfigData)
    (busy : ℕ → Bool) (n : ℕ) (now : ℚ) (s : AudioManagerState)
    (sound_name : String) (v : ℚ)
    (hcover : ∀ inst ∈ s.playing_instances, busy inst.channel_id = true)
    (hinv : uniqueChannelIds s.playing_instances)
    (hrange : ∀ inst ∈ s.playing_instances, inst.channel_id < n) :
    (play env busy n now s sound_name v).2.playing_instances.length ≤ n ∧
    uniqueChannelIds
      ((play env busy n now s sound_name v).2.playing_instances) ∧
    (∀ inst ∈ (play env busy n now s sound_name v).2.playing_instances,
      inst.channel_id < n) ∧
    (stop_all s).playing_instances.length ≤ n ∧
    (stop_sound busy s sound_name).2.playing_instances.length ≤ n ∧
    (update now s).playing_instances.length ≤ n ∧
    (load_sound env s sound_name none none).2.playing_instances.length ≤ n ∧
    (set_master_volume s v).playing_instances.length ≤ n ∧
    (set_sfx_volume s v).playing_instances.length ≤ n := by
  have hlen := instances_length_le s n hinv hrange
  refine ⟨play_length_le env busy n now s sound_name v hcover hinv hrange,
    play_preserves_uniqueChannelIds env busy n now s sound_name v hcover hinv,
    play_preserves_channel_range env busy n now s sound_name v hrange,
    ?_, ?_, ?_, ?_, hlen, hlen⟩
  · simp [stop_all]
  · exact ((stop_sound_playing_sublist busy s sound_name).length_le).trans
      hlen
  · exact ((List.filter_sublist _).length_le).trans hlen
  · rw [load_sound_playing_instances]
    exact hlen

/-- C3 witness: the amended count bound at a concrete covered state. -/
theorem C3_instance_count_invariant_witness :
    ((play envA (fun _ => true) 1 9 stDup "b" 1).2.playing_instances).length
      ≤ 1 :=
  (C3_instance_count_invariant envA (fun _ => true) 1 9 stDup "b" 1
    (by decide) (by decide) (by decide)).1

/-! ## Claim C4 -/

/-- C4: for a loaded asset with a recorded last play time, `play` is
rejected by the rate limit exactly when the elapsed time since that last
successful play start is below the configured minimum delay; and
immediately after a successful `play` with positive minimum delay, a
second `play` of the same asset is rate limited. -/
theorem C4_rate_limit (env : AudioConfigData) (busy : ℕ → Bool) (n : ℕ)
    (now : ℚ) (s : AudioManagerState) (sound_name : String) (v : ℚ)
    (last : ℚ)
    (hl : (dlookup s.sounds sound_name).isSome = true)
    (hlast : dlookup s.last_play_time sound_name = some last) :
    ((play env busy n now s sound_name v).1 = .rateLimited ↔
      now - last < minDelayOf env s sound_name) ∧
    (0 < minDelayOf env s sound_name →
      (play env busy n now s sound_name v).1 = .success →
      ∀ v2 busy2 n2,
        (play env busy2 n2 now ((play env busy n now s sound_name v).2)
          sound_name v2).1 = .rateLimited) := by
  constructor
  · rw [play_rateLimited_iff env busy n now s sound_name v hl]
    exact can_play_sound_rateLimited_iff env now s sound_name
      (configOf s sound_name) last hlast
  · intro hd hsucc v2 busy2 n2
    obtain ⟨hcfg, hcnt, hlastp, hl2⟩ :=
      play_success_effects env busy n now s sound_name v hl hsucc
    rw [play_rateLimited_iff env busy2 n2 now _ sound_name v2 hl2]
    have hlast2 :
        dlookup (play env busy n now s sound_name v).2.last_play_time
          sound_name = some now := by
      rw [hlastp, dlookup_dinsert_self]
    rw [can_play_sound_rateLimited_iff env now _ sound_name _ now hlast2]
    have hcfg2 :
        configOf (play env busy n now s sound_name v).2 sound_name =
          configOf s sound_name := by
      unfold configOf
      rw [hcfg]
    rw [hcfg2, sub_self]
    exact hd

/-- C4 witness: with a one-second minimum delay and a last play at time 0,
a `play` at time 0 is rate limited. -/
theorem C4_rate_limit_witness :
    (play envB (fun _ => false) 8 0 stRate "a" 1).1 =
      PlayResult.rateLimited :=
  (C4_rate_limit envB (fun _ => false) 8 0 stRate "a" 1 0 (by decide)
    (by decide)).1.mpr (by
      have h : minDelayOf envB stRate "a" = 1 := by decide
      rw [h]
      norm_num)

/-! ## Claim C5 -/

/-- C5: for a loaded asset whose active-instance count has reached its
configured maximum, `play` fails, and it fails with the concurrency reason
whenever the rate check passes. -/
theorem C5_concurrency_limit (env : AudioConfigData) (busy : ℕ → Bool)
    (n : ℕ) (now : ℚ) (s : AudioManagerState) (sound_name : String) (v : ℚ)
    (hl : (dlookup s.sounds sound_name).isSome = true)
    (hcount : maxInstancesOf env s sound_name ≤
      s.playing_instances.countP (fun i => i.sound_name == sound_name)) :
    (play env busy n now s sound_name v).1 ≠ .success ∧
    ((∀ last, dlookup s.last_play_time sound_name = some last →
        ¬(now - last < minDelayOf env s sound_name)) →
      (play env busy n now s sound_name v).1 = .concurrencyLimited) := by
  constructor
  · exact play_ne_success_of_check_ne_ok env busy n now s sound_name v hl
      (can_play_sound_ne_ok_of_count env now s sound_name
        (configOf s sound_name) hcount)
  · intro hrate
    rw [play_step_concurrencyLimited env busy n now s s sound_name v
      (loadStep_loaded env s sound_name hl)
      (can_play_sound_concurrency env now s sound_name
        (configOf s sound_name) hrate hcount)]

/-- C5 witness: a sound capped at one concurrent instance and currently
active is rejected with the concurrency reason. -/
theorem C5_concurrency_limit_witness :
    (play envA (fun _ => false) 8 5 stCap "a" 1).1 =
      PlayResult.concurrencyLimited := by
  apply (C5_concurrency_limit envA (fun _ => false) 8 5 stCap "a" 1
    (by decide) (by decide)).2
  intro last hlast
  have h0 : dlookup stCap.last_play_time "a" = some (0 : ℚ) := by decide
  rw [h0] at hlast
  injection hlast with h1
  rw [← h1]
  have h2 : minDelayOf envA stCap "a" = 0 := by decide
  rw [h2]
  norm_num

/-! ## Claim C6 -/

/-- C6: `load_sound` on an already-loaded name returns success immediately
and returns the state unchanged (asset table, configurations, play counts
and active instances included). -/
theorem C6_load_sound_idempotent (env : AudioConfigData)
    (s : AudioManagerState) (sound_name : String)
    (file_path : Option String) (category : Option String)
    (h : (dlookup s.sounds sound_name).isSome = true) :
    load_sound env s sound_name file_path category = (true, s) := by
  unfold load_sound
  rw [if_pos h]

/-- C6 witness: reloading a loaded sound is the identity on a concrete
state. -/
theorem C6_load_sound_idempotent_witness :
    load_sound envA stOne "a" none none = (true, stOne) :=
  C6_load_sound_idempotent envA stOne "a" none none (by decide)

/-! ## Claim C7 -/

/-- C7: the volume setters clamp their argument to [0,1] (any negative
input acts as 0, any input above 1 as 1), are idempotent, and leave the
stored live volume of every loaded sound equal to its base volume times
the clamped multiplier and the other stored multiplier. -/
theorem C7_volume_setters (s : AudioManagerState) (v : ℚ) :
    (v < 0 → set_master_volume s v = set_master_volume s 0 ∧
      set_sfx_volume s v = set_sfx_volume s 0) ∧
    (1 < v → set_master_volume s v = set_master_volume s 1 ∧
      set_sfx_volume s v = set_sfx_volume s 1) ∧
    set_master_volume (set_master_volume s v) v = set_master_volume s v ∧
    set_sfx_volume (set_sfx_volume s v) v = set_sfx_volume s v ∧
    (∀ sound_name vol,
      dlookup (set_master_volume s v).sounds sound_name = some vol →
      vol = ((dlookup s.sound_configs sound_name).getD {}).volume.getD 1 *
        clamp01 v * s.sfx_volume) ∧
    (∀ sound_name vol,
      dlookup (set_sfx_volume s v).sounds sound_name = some vol →
      vol = ((dlookup s.sound_configs sound_name).getD {}).volume.getD 1 *
        s.master_volume * clamp01 v) := by
  refine ⟨?_, ?_, ?_, ?_, ?_, ?_⟩
  · intro h
    constructor
    · unfold set_master_volume
      rw [clamp01_of_neg h, clamp01_zero]
    · unfold set_sfx_volume
      rw [clamp01_of_neg h, clamp01_zero]
  · intro h
    constructor
    · unfold set_master_volume
      rw [clamp01_of_one_lt h, clamp01_one]
    · unfold set_sfx_volume
      rw [clamp01_of_one_lt h, clamp01_one]
  · exact update_all_volumes_idem { s with master_volume := clamp01 v }
  · exact update_all_volumes_idem { s with sfx_volume := clamp01 v }
  · intro sound_name vol h
    unfold set_master_volume at h
    rw [dlookup_update_all_volumes { s with master_volume := clamp01 v }
      sound_name] at h
    dsimp only at h
    cases hL : dlookup s.sounds sound_name with
    | none =>
      rw [hL] at h
      simp at h
    | some w =>
      rw [hL] at h
      simp only [Option.map_some', Option.some.injEq] at h
      exact h.symm
  · intro sound_name vol h
    unfold set_sfx_volume at h
    rw [dlookup_update_all_volumes { s with sfx_volume := clamp01 v }
      sound_name] at h
    dsimp only at h
    cases hL : dlookup s.sounds sound_name with
    | none =>
      rw [hL] at h
      simp at h
    | some w =>
      rw [hL] at h
      simp only [Option.map_some', Option.some.injEq] at h
      exact h.symm

/-! ## Claim C8 -/

/-- C8: a fresh successful `load_sound` stores the mapped (or default)
configuration and `get_sound_info` then reports it with play count 0; one
subsequent successful `play` brings the reported count to 1 with the same
configuration. -/
theorem C8_round_trip (env : AudioConfigData) (s : AudioManagerState)
    (sound_name : String) (file_path : Option String)
    (category : Option String) (s1 : AudioManagerState)
    (hfresh : dlookup s.sounds sound_name = none)
    (hload : load_sound env s sound_name file_path category = (true, s1)) :
    get_sound_info s1 sound_name =
      some (configFor env sound_name category, 0) ∧
    ∀ busy n now v,
      (play env busy n now s1 sound_name v).1 = .success →
      get_sound_info (play env busy n now s1 sound_name v).2 sound_name =
        some (configFor env sound_name category, 1) := by
  unfold load_sound at hload
  rw [hfresh] at hload
  simp only [Option.isSome_none, Bool.false_eq_true, if_false] at hload
  by_cases hpe :
      env.path_exists (file_path.getD (env.get_sfx_path sound_name))
  case neg => simp [hpe] at hload
  rw [if_neg (by simp [hpe])] at hload
  by_cases hde : env.decode_ok (file_path.getD (env.get_sfx_path sound_name))
  case neg => simp [hde] at hload
  rw [if_neg (by simp [hde])] at hload
  simp only [Prod.mk.injEq, true_and] at hload
  subst hload
  constructor
  · unfold get_sound_info
    rw [dlookup_dinsert_self]
    dsimp only
    rw [dlookup_dinsert_self, dlookup_dinsert_self]
    rfl
  · intro busy n now v hsucc
    have hl1 : (dlookup
        ({ s with
          sounds := dinsert s.sounds sound_name
            ((configFor env sound_name category).volume.getD 1 *
              s.master_volume * s.sfx_volume)
          sound_configs := dinsert s.sound_configs sound_name
            (configFor env sound_name category)
          play_count := dinsert s.play_count sound_name 0 }
          : AudioManagerState).sounds sound_name).isSome = true := by
      rw [dlookup_dinsert_self]
      rfl
    obtain ⟨hcfg, hcnt, hlastp, hl2⟩ :=
      play_success_effects env busy n now _ sound_name v hl1 hsucc
    unfold get_sound_info
    rw [if_pos hl2, hcfg, hcnt]
    dsimp only
    rw [dlookup_dinsert_self, dlookup_dinsert_self, dlookup_dinsert_self]
    rfl

/-- C8 witness: a concrete fresh load into the empty state followed by
`get_sound_info`. -/
theorem C8_round_trip_witness :
    get_sound_info stLoaded "a" = some (configFor envL "a" none, 0) :=
  (C8_round_trip envL stEmpty "a" none none stLoaded (by decide)
    (by rfl)).1

/-! ## Claim C9 -/

/-- C9: `stop_all` empties the active-instance list and leaves every
asset's last play time and play count untouched, so an immediate replay
within the minimum delay is still rate limited. -/
theorem C9_stop_all_keeps_rate_limit (s : AudioManagerState) :
    (stop_all s).playing_instances = [] ∧
    (stop_all s).last_play_time = s.last_play_time ∧
    (stop_all s).play_count = s.play_count ∧
    ∀ env busy n now sound_name v last,
      (dlookup s.sounds sound_name).isSome = true →
      dlookup s.last_play_time sound_name = some last →
      now - last < minDelayOf env s sound_name →
      (play env busy n now (stop_all s) sound_name v).1 = .rateLimited := by
  refine ⟨rfl, rfl, rfl, ?_⟩
  intro env busy n now sound_name v last hl hlast hlt
  have hstep := loadStep_loaded env (stop_all s) sound_name hl
  have hc : can_play_sound env now (stop_all s) sound_name
      (configOf (stop_all s) sound_name) = .rateLimited :=
    (can_play_sound_rateLimited_iff env now (stop_all s) sound_name
      (configOf (stop_all s) sound_name) last hlast).mpr hlt
  rw [play_step_rateLimited env busy n now (stop_all s) (stop_all s)
    sound_name v hstep hc]

/-! ## Claim C10 -/

/-- C10: on a loaded asset, a failed `play` (rate limited, concurrency
limited or no channel available) leaves the active-instance list, the
last-play timestamps and the play counts exactly as they were. -/
theorem C10_play_failure_atomic (env : AudioConfigData) (busy : ℕ → Bool)
    (n : ℕ) (now : ℚ) (s : AudioManagerState) (sound_name : String) (v : ℚ)
    (hl : (dlookup s.sounds sound_name).isSome = true)
    (hfail : (play env busy n now s sound_name v).1 ≠ .success) :
    (play env busy n now s sound_name v).2.playing_instances =
      s.playing_instances ∧
    (play env busy n now s sound_name v).2.last_play_time =
      s.last_play_time ∧
    (play env busy n now s sound_name v).2.play_count = s.play_count := by
  have hstep := loadStep_loaded env s sound_name hl
  cases hc : can_play_sound env now s sound_name (configOf s sound_name) with
  | rateLimited =>
    rw [play_step_rateLimited env busy n now s s sound_name v hstep hc]
    exact ⟨rfl, rfl, rfl⟩
  | concurrencyLimited =>
    rw [play_step_concurrencyLimited env busy n now s s sound_name v hstep
      hc]
    exact ⟨rfl, rfl, rfl⟩
  | ok =>
    cases hacq : find_available_channel busy n s.playing_instances with
    | none =>
      rw [play_step_noChannel env busy n now s s sound_name v hstep hc hacq]
      exact ⟨rfl, rfl, rfl⟩
    | some p =>
      obtain ⟨ch, insts⟩ := p
      rw [play_step_success env busy n now s s sound_name v ch insts hstep
        hc hacq] at hfail
      simp at hfail

/-- C10 witness: a rate-limited `play` leaves the instance list unchanged
on a concrete state. -/
theorem C10_play_failure_atomic_witness :
    (play envB (fun _ => false) 8 0 stRate "a" 1).2.playing_instances =
      stRate.playing_instances :=
  (C10_play_failure_atomic envB (fun _ => false) 8 0 stRate "a" 1
    (by decide)
    (by
      have hrl : (play envB (fun _ => false) 8 0 stRate "a" 1).1 =
          PlayResult.rateLimited := by
        rw [play_rateLimited_iff envB (fun _ => false) 8 0 stRate "a" 1
          (by decide)]
        apply (can_play_sound_rateLimited_iff envB 0 stRate "a"
          (configOf stRate "a") 0 (by decide)).mpr
        have h : (configOf stRate "a").min_delay.getD envB.MIN_PLAY_DELAY =
            1 := by decide
        rw [h]
        norm_num
      rw [hrl]
      decide)).1

end XiangqiAudio
